import Mathlib

/-!
Verification of the Vivado toolchain driver (`litex/build/xilinx/vivado.py`):
a shallow embedding of the constraint formatter, the constraint-file builder,
the clock/timing registry, the build-script (tcl) assembler, the wrapper-script
generator and the build orchestrator, together with proofs of the specified
properties.

Conventions of the embedding:
* Python exceptions are modelled with `Except String`; the error string keeps
  the message of the exception raised by the source.
* Python floats (clock periods) are modelled as rationals.  For the registry
  bookkeeping (`round_period`) the idealized exact floor computation on `ℚ`
  is used; for the numerical claim about the rounding itself, a faithful
  binary64 model (`flDouble`, `round_period_float`) rounds every float
  operation of `math.floor(period*1e3)/1e3` to 53 bits as the machine does.
* Python dicts keyed by signals become association lists with in-place update
  (insertion order preserved, as for a `dict`); Python sets become lists with
  membership-tested insertion.
* The deletion of `self.clocks` / `self.false_paths` (finalization) is modelled
  with `Option`: `none` is the deleted (Finalized) state, and touching a deleted
  attribute yields the `AttributeError` the Python interpreter would raise.
-/

namespace Vivado

/-- Identity of a clock signal: migen signals are compared by identity and
sorted by their `duid`; `name` stands for the resolved net name used when a
platform command template is interpolated. -/
structure Clk where
  duid : Nat
  name : String
deriving DecidableEq

/-- The constraint variants dispatched on in `_format_xdc_constraint`
(`Pins`, `IOStandard`, `Drive`, `Misc`, `Inverted`), plus `unknown`, which
stands for a value of any other class reaching the final `else` branch. -/
inductive Constraint where
  | pins (identifiers : List String)
  | iostandard (name : String)
  | drive (strength : Int)
  | misc (misc : String)
  | inverted (invert : Bool)
  | unknown (descr : String)
deriving DecidableEq

/-- Does the constraint carry a physical location (is it a `Pins` value)? -/
def isLocCon : Constraint → Bool
  | .pins _ => true
  | _ => false

/-- Embeds `_xdc_separator`: an 80-column banner comment around `msg`. -/
def _xdc_separator (msg : String) : String :=
  String.mk (List.replicate 80 '#') ++ "\n" ++ "# " ++ msg ++ "\n" ++
    String.mk (List.replicate 80 '#') ++ "\n"

/-- Embeds `_format_xdc_constraint`: it maps one constraint to its xdc property
statement (`none` for `Inverted`, which has no textual form).  `Pins` with an
empty identifier list models the `IndexError` of `c.identifiers[0]`; the
`unknown` case models the `ValueError` of the final `else`. -/
def _format_xdc_constraint : Constraint → Except String (Option String)
  | .pins [] => .error ("IndexError: list index out of range")
  | .pins (x :: _) => .ok (some ("set_property LOC " ++ x))
  | .iostandard n => .ok (some ("set_property IOSTANDARD " ++ n))
  | .drive s => .ok (some ("set_property DRIVE " ++ toString s))
  | .misc m => .ok (some (("set_property " : String) ++ m.replace ("=") (" ")))
  | .inverted _ => .ok none
  | .unknown d => .error ("unknown constraint " ++ d)

/-- Is an `Except` value a success? -/
def isOkE {α : Type} (e : Except String α) : Bool :=
  match e with
  | .ok _ => true
  | .error _ => false

/-- Sequencing of a fallible function over a list (a Python `for` loop or
comprehension whose body may raise): stops at the first error. -/
def traverseE {α β : Type} (f : α → Except String β) : List α → Except String (List β)
  | [] => .ok []
  | x :: xs =>
    match f x with
    | .error e => .error e
    | .ok y =>
      match traverseE f xs with
      | .error e => .error e
      | .ok ys => .ok (y :: ys)

/-- Did the formatter succeed on this constraint? -/
def fmtOk (c : Constraint) : Bool :=
  isOkE (_format_xdc_constraint c)

/-- The resource-name triple `(group, index, optional subname)` of a named
signal constraint. -/
def ResName : Type := String × Nat × Option String

/-- Embeds `_format_xdc`: one block of the constraint file: a comment restating the
resource name, then one property line per formatted constraint targeting
`signame`, then a blank line. -/
def _format_xdc (signame : String) (resname : ResName)
    (constraints : List Constraint) : Except String String :=
  match traverseE _format_xdc_constraint constraints with
  | .error e => .error e
  | .ok fmt_c =>
    let fmt_r := resname.1 ++ ":" ++ toString resname.2.1 ++
      (match resname.2.2 with
       | some sub => "." ++ sub
       | none => "")
    let r := fmt_c.foldl (fun acc c =>
      match c with
      | some s => acc ++ s ++ " [get_ports " ++ signame ++ "]\n"
      | none => acc) ("# " ++ fmt_r ++ "\n")
    .ok (r ++ "\n")

/-- One element of `named_sc`: signal display name, its site list, its shared
non-location constraints, and its resource name. -/
structure SigCon where
  sig : String
  pins : List String
  others : List Constraint
  resname : ResName

/-- The body of `_build_xdc`'s loop for one named signal constraint: expand a
vector signal into indexed sub-signals (one `Pins` site each), pass `pins[0]`
for a scalar, and only the shared constraints when there is no site. -/
def _build_xdc_entry (sc : SigCon) : Except String String :=
  if 1 < sc.pins.length then
    match traverseE (fun ip => _format_xdc (sc.sig ++ "[" ++ toString ip.1 ++ "]")
        sc.resname (Constraint.pins [ip.2] :: sc.others)) sc.pins.enum with
    | .error e => .error e
    | .ok bs => .ok (String.join bs)
  else
    match sc.pins with
    | p :: _ => _format_xdc sc.sig sc.resname (Constraint.pins [p] :: sc.others)
    | [] => _format_xdc sc.sig sc.resname sc.others

/-- Embeds `_build_xdc`: the whole constraint file: the banner-delimited I/O section
with one block group per named signal constraint, then the design-constraint
section with the platform commands joined by blank lines. -/
def _build_xdc (named_sc : List SigCon) (named_pc : List String) :
    Except String String :=
  match traverseE _build_xdc_entry named_sc with
  | .error e => .error e
  | .ok entries =>
    let r := _xdc_separator ("IO constraints") ++ String.join entries ++
      _xdc_separator ("Design constraints")
    .ok (if named_pc.isEmpty then r
         else r ++ "\n" ++ String.intercalate ("\n\n") named_pc)

/-- Embeds the `math.floor(period*1e3)/1e3` rounding of `add_period_constraint`
as its exact-arithmetic idealization (round a period down to the lowest
picosecond), used for the registry bookkeeping.  The machine-level binary64
version of the same expression is `round_period_float` below. -/
def round_period (p : ℚ) : ℚ :=
  ((⌊p * 1000⌋ : ℤ) : ℚ) / 1000

/-- Embeds `"{:.2f}".format(v)`: fixed two-decimal rendering of a period, used in the
conflicting-constraint message. -/
def format2f (q : ℚ) : String :=
  let sign : String := if q < 0 then "-" else ""
  let n : ℤ := round (|q| * 100)
  let f : Nat := (n % 100).toNat
  sign ++ toString (n / 100) ++ "." ++ (if f < 10 then "0" else "") ++ toString f

/-- C5: the constraint formatter is a deterministic total function over the
five variants: `Pins` maps to a `set_property LOC` statement carrying only the
first site identifier, `IOStandard` to `set_property IOSTANDARD`, `Drive` to
`set_property DRIVE` with the strength stringified, `Misc` to a generic
`set_property` with `=` replaced by a space, `Inverted` always to absent, and
any value outside these variants makes it fail. -/
theorem format_xdc_constraint_spec :
    (∀ s rest, _format_xdc_constraint (.pins (s :: rest)) =
      .ok (some ("set_property LOC " ++ s))) ∧
    (∀ n, _format_xdc_constraint (.iostandard n) =
      .ok (some ("set_property IOSTANDARD " ++ n))) ∧
    (∀ k, _format_xdc_constraint (.drive k) =
      .ok (some ("set_property DRIVE " ++ toString k))) ∧
    (∀ m, _format_xdc_constraint (.misc m) =
      .ok (some (("set_property " : String) ++ m.replace ("=") (" ")))) ∧
    (∀ b, _format_xdc_constraint (.inverted b) = .ok none) ∧
    (∀ d, _format_xdc_constraint (.unknown d) =
      .error ("unknown constraint " ++ d)) := by
  refine ⟨fun s rest => rfl, fun n => rfl, fun k => rfl, fun m => rfl,
    fun b => rfl, fun d => rfl⟩

/-- Sanity fact about the exact-arithmetic idealization `round_period` (the
intent stated by the source's own comment, `round to lowest picosecond`): with
exact arithmetic, flooring to 0.001 is idempotent and never rounds up.  The
code computes this expression in IEEE doubles, which violate both properties;
see `round_period_float_violates_claim` below. -/
theorem round_period_exact_idem_le :
    (∀ x : ℚ, round_period (round_period x) = round_period x) ∧
    (∀ x : ℚ, round_period x ≤ x) ∧
    round_period (314159 / 100000) = 3141 / 1000 := by
  refine ⟨fun x => ?_, fun x => ?_, by norm_num [round_period]⟩
  · unfold round_period
    have h : ((⌊x * 1000⌋ : ℤ) : ℚ) / 1000 * 1000 = ((⌊x * 1000⌋ : ℤ) : ℚ) := by
      field_simp
    rw [h, Int.floor_intCast]
  · unfold round_period
    rw [div_le_iff₀ (by norm_num : (0:ℚ) < 1000)]
    exact Int.floor_le (x * 1000)

/-- Round a rational to the nearest integer with ties to even (the IEEE
default rounding rule applied to the scaled significand). -/
def roundHalfEven (q : ℚ) : ℤ :=
  if q - (⌊q⌋ : ℚ) < 1 / 2 then ⌊q⌋
  else if 1 / 2 < q - (⌊q⌋ : ℚ) then ⌊q⌋ + 1
  else if ⌊q⌋ % 2 = 0 then ⌊q⌋ else ⌊q⌋ + 1

/-- Rounding of a positive rational to the nearest IEEE binary64 value (53
significant bits, round to nearest, ties to even): the exact value of the
double produced by one float operation whose exact result is `q`.  All values
arising below lie in the normal range, so overflow and subnormals need no
special case; non-positive inputs (never produced here) map to 0. -/
def flDouble (q : ℚ) : ℚ :=
  if q ≤ 0 then 0
  else (roundHalfEven (q / (2 : ℚ) ^ (Int.log 2 q - 52)) : ℚ) *
    (2 : ℚ) ^ (Int.log 2 q - 52)

/-- Embeds the rounding of `add_period_constraint` as the machine actually
computes it: in `math.floor(period*1e3)/1e3` the multiplication by the
exactly-representable constant `1e3` rounds its exact product to binary64,
`math.floor` is exact, and the division by `1e3` rounds again.  The argument
is the exact rational value of the input double. -/
def round_period_float (x : ℚ) : ℚ :=
  flDouble ((⌊flDouble (x * 1000)⌋ : ℚ) / 1000)

/-- Characterization of `Int.log 2` from the two binade bounds, used to
evaluate `flDouble` at concrete inputs. -/
theorem int_log_eq (q : ℚ) (E : ℤ) (h0 : 0 < q)
    (h1 : (2 : ℚ) ^ E ≤ q) (h2 : q < (2 : ℚ) ^ (E + 1)) : Int.log 2 q = E := by
  have hle : E ≤ Int.log 2 q := by
    have hmono : Int.log 2 ((2 : ℚ) ^ E) ≤ Int.log 2 q :=
      Int.log_mono_right (zpow_pos (by norm_num) E) h1
    have hzpow : Int.log 2 (((2 : ℕ) : ℚ) ^ E) = E :=
      Int.log_zpow (by norm_num) E
    simp only [Nat.cast_ofNat] at hzpow
    rwa [hzpow] at hmono
  have hlt : Int.log 2 q < E + 1 := by
    by_contra hcon
    push_neg at hcon
    have h3 : (2 : ℚ) ^ (E + 1) ≤ (2 : ℚ) ^ Int.log 2 q :=
      zpow_le_zpow_right₀ (by norm_num) hcon
    have h4 : ((2 : ℕ) : ℚ) ^ Int.log 2 q ≤ q :=
      Int.zpow_log_le_self (by norm_num) h0
    simp only [Nat.cast_ofNat] at h4
    exact absurd (h3.trans h4) (not_le.2 h2)
  omega

/-- Evaluation rule for `flDouble`: supply the binade exponent `E` and the
rounded 53-bit significand `m`. -/
theorem flDouble_eval (q : ℚ) (E m : ℤ) (h0 : 0 < q)
    (h1 : (2 : ℚ) ^ E ≤ q) (h2 : q < (2 : ℚ) ^ (E + 1))
    (hm : roundHalfEven (q / (2 : ℚ) ^ (E - 52)) = m) :
    flDouble q = (m : ℚ) * (2 : ℚ) ^ (E - 52) := by
  unfold flDouble
  rw [if_neg (not_le.2 h0), int_log_eq q E h0 h1 h2, hm]

/-- Dividing the integer 1001 by `1e3` yields the double
`2254051613498933 * 2^-51`, the value Python prints as `1.001`. -/
theorem flDouble_1001_div_1000 : flDouble ((1001 : ℚ) / 1000) =
    (2254051613498933 : ℚ) / 2251799813685248 := by
  have h := flDouble_eval ((1001 : ℚ) / 1000) 0 4508103226997866
    (by norm_num) (by norm_num) (by norm_num) (by norm_num [roundHalfEven])
  rw [h]
  norm_num

/-- Evaluates `math.floor(x*1e3)/1e3` at the double `1.0015`
(`140948594587861 * 2^-47`): the product is exactly `1001.5`, the floor is
`1001`, and the result is the double `1.001`. -/
theorem round_period_float_1_0015 :
    round_period_float ((140948594587861 : ℚ) / 140737488355328) =
      (2254051613498933 : ℚ) / 2251799813685248 := by
  unfold round_period_float
  have hA : flDouble ((140948594587861 : ℚ) / 140737488355328 * 1000) =
      2003 / 2 := by
    have h := flDouble_eval ((140948594587861 : ℚ) / 140737488355328 * 1000)
      9 8809287161741312 (by norm_num) (by norm_num) (by norm_num)
      (by norm_num [roundHalfEven])
    rw [h]
    norm_num
  rw [hA, show ((⌊(2003 : ℚ) / 2⌋ : ℚ)) = 1001 by norm_num]
  exact flDouble_1001_div_1000

/-- Evaluates `math.floor(x*1e3)/1e3` at the double `1.001`: the product is
the double `1000.9999999999999`, the floor is `1000`, and the result is
exactly `1.0`. -/
theorem round_period_float_1_001 :
    round_period_float ((2254051613498933 : ℚ) / 2251799813685248) = 1 := by
  unfold round_period_float
  have hA : flDouble ((2254051613498933 : ℚ) / 2251799813685248 * 1000) =
      (8804889115230207 : ℚ) / 8796093022208 := by
    have h := flDouble_eval ((2254051613498933 : ℚ) / 2251799813685248 * 1000)
      9 8804889115230207 (by norm_num) (by norm_num) (by norm_num)
      (by norm_num [roundHalfEven])
    rw [h]
    norm_num
  rw [hA, show ((⌊(8804889115230207 : ℚ) / 8796093022208⌋ : ℚ)) = 1000 by
    norm_num]
  have h := flDouble_eval ((1000 : ℚ) / 1000) 0 4503599627370496
    (by norm_num) (by norm_num) (by norm_num) (by norm_num [roundHalfEven])
  rw [h]
  norm_num

/-- Evaluates `math.floor(x*1e3)/1e3` at the double `0.11699999999999999`
(`131730289100587 * 2^-50`, the predecessor of the double `0.117`): the
product rounds up to exactly `117.0`, and the result is the double `0.117`
(`8430738502437569 * 2^-56`), which exceeds the input. -/
theorem round_period_float_0_117_pred :
    round_period_float ((131730289100587 : ℚ) / 1125899906842624) =
      (8430738502437569 : ℚ) / 72057594037927936 := by
  unfold round_period_float
  have hA : flDouble ((131730289100587 : ℚ) / 1125899906842624 * 1000) =
      117 := by
    have h := flDouble_eval ((131730289100587 : ℚ) / 1125899906842624 * 1000)
      6 8233143068786688 (by norm_num) (by norm_num) (by norm_num)
      (by norm_num [roundHalfEven])
    rw [h]
    norm_num
  rw [hA, show ((⌊(117 : ℚ)⌋ : ℚ)) = 117 by norm_num]
  have h := flDouble_eval ((117 : ℚ) / 1000) (-4) 8430738502437569
    (by norm_num) (by norm_num) (by norm_num) (by norm_num [roundHalfEven])
  rw [h]
  norm_num

/-- C7: the claimed rounding properties fail in the IEEE-double arithmetic the
code actually performs.  At the double `1.0015` the rounding returns the
double `1.001`, and rounding that returns `1.0`, so the rounding is not
idempotent; at the double `0.11699999999999999` the rounding returns the
double `0.117`, which is strictly greater than the input, so the rounding
rounds up — both contradicting the claim (and the source's own comment
`round to lowest picosecond`), which the exact idealization
`round_period_exact_idem_le` shows is the intended behavior. -/
theorem round_period_float_violates_claim :
    round_period_float ((140948594587861 : ℚ) / 140737488355328) =
      (2254051613498933 : ℚ) / 2251799813685248 ∧
    round_period_float ((2254051613498933 : ℚ) / 2251799813685248) = 1 ∧
    round_period_float (round_period_float
      ((140948594587861 : ℚ) / 140737488355328)) ≠
      round_period_float ((140948594587861 : ℚ) / 140737488355328) ∧
    (131730289100587 : ℚ) / 1125899906842624 <
      round_period_float ((131730289100587 : ℚ) / 1125899906842624) := by
  refine ⟨round_period_float_1_0015, round_period_float_1_001, ?_, ?_⟩
  · rw [round_period_float_1_0015, round_period_float_1_001]
    norm_num
  · rw [round_period_float_0_117_pred]
    norm_num

theorem traverseE_ok_length {α β : Type} {f : α → Except String β} {l : List α}
    {ys : List β} (h : traverseE f l = .ok ys) : ys.length = l.length := by
  induction l generalizing ys with
  | nil =>
    simp only [traverseE, Except.ok.injEq] at h
    subst h; rfl
  | cons x xs ih =>
    unfold traverseE at h
    cases hf : f x with
    | error e => rw [hf] at h; simp at h
    | ok y =>
      rw [hf] at h
      cases ht : traverseE f xs with
      | error e => rw [ht] at h; simp at h
      | ok zs =>
        rw [ht] at h
        simp only [Except.ok.injEq] at h
        subst h
        simp [ih ht]

theorem traverseE_ok_get {α β : Type} {f : α → Except String β} {l : List α}
    {ys : List β} (h : traverseE f l = .ok ys) :
    ∀ i (hi : i < l.length) (hi' : i < ys.length),
      f (l.get ⟨i, hi⟩) = .ok (ys.get ⟨i, hi'⟩) := by
  induction l generalizing ys with
  | nil => intro i hi hi'; exact absurd hi (by simp)
  | cons x xs ih =>
    intro i hi hi'
    unfold traverseE at h
    cases hf : f x with
    | error e => rw [hf] at h; simp at h
    | ok y =>
      rw [hf] at h
      cases ht : traverseE f xs with
      | error e => rw [ht] at h; simp at h
      | ok zs =>
        rw [ht] at h
        simp only [Except.ok.injEq] at h
        subst h
        cases i with
        | zero => simpa using hf
        | succ j => exact ih ht j (by simpa using hi) (by simpa using hi')

theorem traverseE_isOk {α β : Type} {f : α → Except String β} {l : List α}
    (h : ∀ a ∈ l, isOkE (f a) = true) : ∃ ys, traverseE f l = .ok ys := by
  induction l with
  | nil => exact ⟨[], rfl⟩
  | cons x xs ih =>
    have hx := h x (by simp)
    cases hf : f x with
    | error e => rw [hf] at hx; simp [isOkE] at hx
    | ok y =>
      obtain ⟨ys, hys⟩ := ih (fun a ha => h a (by simp [ha]))
      exact ⟨y :: ys, by simp [traverseE, hf, hys]⟩

theorem isOkE_exists {α : Type} {e : Except String α} (h : isOkE e = true) :
    ∃ y, e = .ok y := by
  cases e with
  | ok y => exact ⟨y, rfl⟩
  | error e => simp [isOkE] at h

theorem format_xdc_isOk (signame : String) (resname : ResName)
    {cs : List Constraint} (h : ∀ c ∈ cs, fmtOk c = true) :
    ∃ s, _format_xdc signame resname cs = .ok s := by
  obtain ⟨ys, hys⟩ := @traverseE_isOk _ _ _format_xdc_constraint _ h
  exact ⟨_, by unfold _format_xdc; rw [hys]⟩

/-- C2: for a named signal constraint with `k ≥ 2` sites the builder emits
exactly `k` blocks, the `i`-th named `sig[i]` and carrying exactly one
location constraint (its own site) plus the shared non-location constraints;
with one site it emits one block with a single location constraint; with zero
sites it emits one block with no location constraint. -/
theorem build_xdc_vector_expansion
    (sig : String) (pins : List String) (others : List Constraint)
    (resname : ResName)
    (hok : ∀ c ∈ others, fmtOk c = true)
    (hnl : ∀ c ∈ others, isLocCon c = false) :
    (1 < pins.length →
      ∃ bs, traverseE (fun ip => _format_xdc (sig ++ "[" ++ toString ip.1 ++ "]")
              resname (Constraint.pins [ip.2] :: others)) pins.enum = .ok bs ∧
        bs.length = pins.length ∧
        _build_xdc [⟨sig, pins, others, resname⟩] [] =
          .ok (_xdc_separator ("IO constraints") ++ String.join bs ++
               _xdc_separator ("Design constraints")) ∧
        ∀ i (h : i < pins.length) (h' : i < bs.length),
          _format_xdc (sig ++ "[" ++ toString i ++ "]") resname
              (Constraint.pins [pins.get ⟨i, h⟩] :: others) = .ok (bs.get ⟨i, h'⟩) ∧
          (Constraint.pins [pins.get ⟨i, h⟩] :: others).countP isLocCon = 1) ∧
    (∀ p, pins = [p] →
      ∃ b, _format_xdc sig resname (Constraint.pins [p] :: others) = .ok b ∧
        _build_xdc [⟨sig, pins, others, resname⟩] [] =
          .ok (_xdc_separator ("IO constraints") ++ b ++
               _xdc_separator ("Design constraints")) ∧
        (Constraint.pins [p] :: others).countP isLocCon = 1) ∧
    (pins = [] →
      ∃ b, _format_xdc sig resname others = .ok b ∧
        _build_xdc [⟨sig, pins, others, resname⟩] [] =
          .ok (_xdc_separator ("IO constraints") ++ b ++
               _xdc_separator ("Design constraints")) ∧
        others.countP isLocCon = 0) := by
  have hcountz : others.countP isLocCon = 0 :=
    List.countP_eq_zero.2 (fun a ha => by simp [hnl a ha])
  have hcount1 : ∀ x : String,
      (Constraint.pins [x] :: others).countP isLocCon = 1 := by
    intro x
    rw [List.countP_cons_of_pos isLocCon others (by rfl), hcountz]
  refine ⟨fun h2 => ?_, fun p hp => ?_, fun hp => ?_⟩
  · have hall : ∀ ip ∈ pins.enum,
        isOkE (_format_xdc (sig ++ "[" ++ toString ip.1 ++ "]") resname
          (Constraint.pins [ip.2] :: others)) = true := by
      intro ip _
      obtain ⟨s, hs⟩ := @format_xdc_isOk (sig ++ "[" ++ toString ip.1 ++ "]")
        resname (Constraint.pins [ip.2] :: others)
        (by
          intro c hc
          rcases List.mem_cons.1 hc with h | h
          · subst h; rfl
          · exact hok c h)
      rw [hs]; rfl
    obtain ⟨bs, hbs⟩ := traverseE_isOk hall
    have hlen : bs.length = pins.length := by
      rw [traverseE_ok_length hbs, List.enum_length]
    refine ⟨bs, hbs, hlen, ?_, ?_⟩
    · simp only [_build_xdc, traverseE, _build_xdc_entry, if_pos h2, hbs]
      rfl
    · intro i h h'
      have hget := traverseE_ok_get hbs i (by simpa [List.enum_length] using h) h'
      have henum : pins.enum.get ⟨i, by simpa [List.enum_length] using h⟩ =
          (i, pins.get ⟨i, h⟩) := by
        simp [List.get_eq_getElem, List.getElem_enum]
      rw [henum] at hget
      exact ⟨hget, hcount1 _⟩
  · subst hp
    obtain ⟨b, hb⟩ := @format_xdc_isOk sig resname
      (Constraint.pins [p] :: others)
      (by
        intro c hc
        rcases List.mem_cons.1 hc with h | h
        · subst h; rfl
        · exact hok c h)
    refine ⟨b, hb, ?_, hcount1 _⟩
    simp only [_build_xdc, traverseE, _build_xdc_entry]
    norm_num
    rw [hb]
    rfl
  · subst hp
    obtain ⟨b, hb⟩ := @format_xdc_isOk sig resname others hok
    refine ⟨b, hb, ?_, hcountz⟩
    simp only [_build_xdc, traverseE, _build_xdc_entry]
    norm_num
    rw [hb]
    rfl

/-- Witness for C2: a 2-bit signal `data` with sites `B1`,`B2` and a shared
`IOStandard` expands into two indexed blocks. -/
theorem build_xdc_vector_expansion_witness :
    _build_xdc [⟨"data", ["B1", "B2"], [Constraint.iostandard ("LVCMOS33")],
        ("X", 0, none)⟩] [] =
      .ok (_xdc_separator ("IO constraints") ++
        String.join
          ["# X:0\nset_property LOC B1 [get_ports data[0]]\nset_property IOSTANDARD LVCMOS33 [get_ports data[0]]\n\n",
           "# X:0\nset_property LOC B2 [get_ports data[1]]\nset_property IOSTANDARD LVCMOS33 [get_ports data[1]]\n\n"] ++
        _xdc_separator ("Design constraints")) := by
  obtain ⟨bs, h1, hlen, h3, hidx⟩ :=
    (build_xdc_vector_expansion ("data") (["B1", "B2"])
      ([Constraint.iostandard ("LVCMOS33")]) (("X", 0, none))
      (by decide) (by decide)).1 (by decide)
  have h2 : traverseE (fun ip => _format_xdc ("data" ++ "[" ++ toString ip.1 ++ "]")
      ("X", 0, none) (Constraint.pins [ip.2] :: [Constraint.iostandard ("LVCMOS33")]))
      (["B1", "B2"] : List String).enum =
      .ok ["# X:0\nset_property LOC B1 [get_ports data[0]]\nset_property IOSTANDARD LVCMOS33 [get_ports data[0]]\n\n",
           "# X:0\nset_property LOC B2 [get_ports data[1]]\nset_property IOSTANDARD LVCMOS33 [get_ports data[1]]\n\n"] := by
    rfl
  rw [h2] at h1
  injection h1 with h1
  rw [← h1] at h3
  exact h3

/-- First-match lookup in an association list (a Python `dict` read). -/
def lookupQ : List (Clk × ℚ) → Clk → Option ℚ
  | [], _ => none
  | kv :: rest, k => if kv.1 = k then some kv.2 else lookupQ rest k

/-- In-place update of an association list (`self.clocks[clk] = period`):
replaces the binding when the key is present, appends it otherwise, keeping
dict insertion order. -/
def updateAssoc : List (Clk × ℚ) → Clk → ℚ → List (Clk × ℚ)
  | [], k, v => [(k, v)]
  | kv :: rest, k, v => if kv.1 = k then (k, v) :: rest else kv :: updateAssoc rest k v

/-- Embeds `clk.attr.add("keep")`: the signal attribute set only grows when the
attribute is new. -/
def keepInsert (l : List Clk) (c : Clk) : List Clk :=
  if c ∈ l then l else l ++ [c]

/-- Embeds `set.add` on the false-path set: a no-op when the element is present. -/
def setInsert (l : List (Clk × Clk)) (x : Clk × Clk) : List (Clk × Clk) :=
  if x ∈ l then l else l ++ [x]

/-- How many entries of `l` denote the unordered clock pair `{A, B}`. -/
def countPair (A B : Clk) (l : List (Clk × Clk)) : Nat :=
  l.countP (fun q => decide ((q.1 = A ∧ q.2 = B) ∨ (q.1 = B ∧ q.2 = A)))

/-- The mutable state of `XilinxVivadoToolchain` set up in `__init__`.
`clocks` and `false_paths` are `Option`s: `none` models the state after
`del self.clocks` / `del self.false_paths` (the Finalized registry), where
any further access raises `AttributeError`.  `keepAttrs` collects the signals
marked with the `keep` attribute. -/
structure Toolchain where
  bitstream_commands : List String
  additional_commands : List String
  pre_synthesis_commands : List String
  pre_placement_commands : List String
  pre_routing_commands : List String
  incremental_implementation : Bool
  vivado_synth_directive : String
  opt_directive : String
  vivado_place_directive : String
  vivado_post_place_phys_opt_directive : Option String
  vivado_route_directive : String
  vivado_post_route_phys_opt_directive : String
  clocks : Option (List (Clk × ℚ))
  false_paths : Option (List (Clk × Clk))
  keepAttrs : List Clk
deriving DecidableEq

/-- The state right after `XilinxVivadoToolchain.__init__`. -/
def vivadoInit : Toolchain where
  bitstream_commands := []
  additional_commands := []
  pre_synthesis_commands := []
  pre_placement_commands := []
  pre_routing_commands := []
  incremental_implementation := false
  vivado_synth_directive := "default"
  opt_directive := "default"
  vivado_place_directive := "default"
  vivado_post_place_phys_opt_directive := none
  vivado_route_directive := "default"
  vivado_post_route_phys_opt_directive := "default"
  clocks := some []
  false_paths := some []
  keepAttrs := []

/-- Embeds `add_period_constraint`: mark the clock kept, round the period down to the
lowest picosecond, fail when an entry with a different rounded value exists
(message giving both values at two decimals), otherwise record the value. -/
def add_period_constraint (tc : Toolchain) (clk : Clk) (period : ℚ) :
    Except String Toolchain :=
  let tc := { tc with keepAttrs := keepInsert tc.keepAttrs clk }
  let p := round_period period
  match tc.clocks with
  | none => .error ("AttributeError: clocks")
  | some clocks =>
    match lookupQ clocks clk with
    | some old =>
      if p ≠ old then
        .error ("Clock already constrained to " ++ format2f old ++
          "ns, new constraint to " ++ format2f p ++ "ns")
      else .ok { tc with clocks := some (updateAssoc clocks clk p) }
    | none => .ok { tc with clocks := some (updateAssoc clocks clk p) }

/-- Embeds `add_false_path_constraint`: mark both clocks kept and add the ordered
pair unless the reverse-ordered pair is already present. -/
def add_false_path_constraint (tc : Toolchain) (from_ to_ : Clk) :
    Except String Toolchain :=
  let tc := { tc with keepAttrs := keepInsert (keepInsert tc.keepAttrs from_) to_ }
  match tc.false_paths with
  | none => .error ("AttributeError: false_paths")
  | some fps =>
    let fps' := if (to_, from_) ∈ fps then fps else setInsert fps (from_, to_)
    .ok { tc with false_paths := some fps' }

theorem mem_keepInsert_self (l : List Clk) (c : Clk) : c ∈ keepInsert l c := by
  unfold keepInsert
  split
  · assumption
  · simp

theorem keepInsert_of_mem {l : List Clk} {c : Clk} (h : c ∈ l) :
    keepInsert l c = l := by
  unfold keepInsert
  rw [if_pos h]

theorem lookupQ_updateAssoc (l : List (Clk × ℚ)) (k : Clk) (v : ℚ) :
    lookupQ (updateAssoc l k v) k = some v := by
  induction l with
  | nil => simp [updateAssoc, lookupQ]
  | cons kv rest ih =>
    by_cases h : kv.1 = k
    · simp [updateAssoc, h, lookupQ]
    · simp [updateAssoc, h, lookupQ, ih]

theorem updateAssoc_idem (l : List (Clk × ℚ)) (k : Clk) (v : ℚ) :
    updateAssoc (updateAssoc l k v) k v = updateAssoc l k v := by
  induction l with
  | nil => simp [updateAssoc]
  | cons kv rest ih =>
    by_cases h : kv.1 = k
    · simp [updateAssoc, h]
    · simp [updateAssoc, h, ih]

/-- C3: after a successful registration, registering the same clock again
with a period that rounds to the same 0.001 ns value returns the state
unchanged, and registering with a differing rounded value fails with a
message naming both values at 2-decimal precision. -/
theorem add_period_constraint_repeat (tc tc₁ : Toolchain) (clk : Clk) (p p' : ℚ)
    (h1 : add_period_constraint tc clk p = .ok tc₁) :
    (round_period p' = round_period p →
      add_period_constraint tc₁ clk p' = .ok tc₁) ∧
    (round_period p' ≠ round_period p →
      add_period_constraint tc₁ clk p' =
        .error ("Clock already constrained to " ++ format2f (round_period p) ++
          "ns, new constraint to " ++ format2f (round_period p') ++ "ns")) := by
  obtain ⟨bc, ac, psc, ppc, prc, inc, sd, od, pd, popd, rd, pord, cl, fp, ka⟩ := tc
  cases cl with
  | none => simp [add_period_constraint] at h1
  | some clocks =>
    have hfin : tc₁ = ⟨bc, ac, psc, ppc, prc, inc, sd, od, pd, popd, rd, pord,
        some (updateAssoc clocks clk (round_period p)), fp, keepInsert ka clk⟩ := by
      cases hl : lookupQ clocks clk with
      | some old =>
        simp only [add_period_constraint, hl] at h1
        by_cases hpe : round_period p = old
        · rw [if_neg (fun hn => hn hpe)] at h1
          injection h1 with h1
          exact h1.symm
        · rw [if_pos hpe] at h1
          exact absurd h1 (by simp)
      | none =>
        simp only [add_period_constraint, hl] at h1
        injection h1 with h1
        exact h1.symm
    subst hfin
    constructor
    · intro he
      simp only [add_period_constraint, lookupQ_updateAssoc,
        keepInsert_of_mem (mem_keepInsert_self ka clk)]
      rw [if_neg (fun hn => hn he), he, updateAssoc_idem]
    · intro hne
      simp only [add_period_constraint, lookupQ_updateAssoc,
        keepInsert_of_mem (mem_keepInsert_self ka clk)]
      rw [if_pos hne]

/-- The clock used in the concrete registry scenarios. -/
def sysClk : Clk := ⟨0, "sys_clk"⟩

/-- The registry state after registering `sys_clk` at 10.0006 ns. -/
def periodState : Toolchain :=
  { vivadoInit with clocks := some [(sysClk, 10)], keepAttrs := [sysClk] }

theorem round_period_100006 : round_period (100006 / 10000 : ℚ) = 10 := by
  unfold round_period
  norm_num

theorem round_period_8 : round_period (8 : ℚ) = 8 := by
  unfold round_period
  norm_num

theorem format2f_10 : format2f (10 : ℚ) = "10.00" := by
  have hr : round ((|(10 : ℚ)|) * 100) = 1000 := by rw [round_eq]; norm_num
  simp only [format2f, hr, if_neg (by norm_num : ¬((10 : ℚ) < 0))]
  decide

theorem format2f_8 : format2f (8 : ℚ) = "8.00" := by
  have hr : round ((|(8 : ℚ)|) * 100) = 800 := by rw [round_eq]; norm_num
  simp only [format2f, hr, if_neg (by norm_num : ¬((8 : ℚ) < 0))]
  decide

theorem add_period_constraint_first :
    add_period_constraint vivadoInit sysClk (100006 / 10000) = .ok periodState := by
  simp [add_period_constraint, vivadoInit, lookupQ, updateAssoc, keepInsert,
    periodState, round_period_100006]

/-- Witness for C3: registering `sys_clk` at 10.0006 ns twice is a no-op and a
third registration at 8 ns fails citing `10.00ns` and `8.00ns`. -/
theorem add_period_constraint_repeat_witness :
    add_period_constraint periodState sysClk (100006 / 10000) = .ok periodState ∧
    add_period_constraint periodState sysClk 8 =
      .error ("Clock already constrained to 10.00ns, new constraint to 8.00ns") := by
  have h := add_period_constraint_repeat vivadoInit periodState sysClk
    (100006 / 10000) (100006 / 10000) add_period_constraint_first
  have h' := add_period_constraint_repeat vivadoInit periodState sysClk
    (100006 / 10000) 8 add_period_constraint_first
  have hne : round_period (8 : ℚ) ≠ round_period (100006 / 10000 : ℚ) := by
    rw [round_period_8, round_period_100006]
    norm_num
  have he := h'.2 hne
  rw [round_period_8, round_period_100006, format2f_10, format2f_8] at he
  exact ⟨h.1 rfl, he.trans (congrArg Except.error (by decide))⟩

/-- Order on clock-table entries used by `sorted(..., key=lambda x: x[0].duid)`. -/
def clkLe (a b : Clk × ℚ) : Prop := a.1.duid ≤ b.1.duid

instance : DecidableRel clkLe :=
  fun a b => inferInstanceAs (Decidable (a.1.duid ≤ b.1.duid))

/-- Lexicographic order on false-path pairs used by
`sorted(..., key=lambda x: (x[0].duid, x[1].duid))`. -/
def pairLe (a b : Clk × Clk) : Prop :=
  a.1.duid < b.1.duid ∨ (a.1.duid = b.1.duid ∧ a.2.duid ≤ b.2.duid)

instance : DecidableRel pairLe :=
  fun a b => inferInstanceAs
    (Decidable (a.1.duid < b.1.duid ∨ (a.1.duid = b.1.duid ∧ a.2.duid ≤ b.2.duid)))

/-- Stable sort of the clock table (Python `sorted` by `duid`). -/
def sortClocks (l : List (Clk × ℚ)) : List (Clk × ℚ) := List.insertionSort clkLe l

/-- Stable sort of the false-path set (Python `sorted` by the `duid` pair). -/
def sortPairs (l : List (Clk × Clk)) : List (Clk × Clk) := List.insertionSort pairLe l

/-- The `create_clock` platform command emitted for one clock-table entry
(the `{clk}` placeholders interpolated with the net name). -/
def clockCmd (cp : Clk × ℚ) : String :=
  "create_clock -name " ++ cp.1.name ++ " -period " ++ toString cp.2 ++
    " [get_nets " ++ cp.1.name ++ "]"

/-- The `set_clock_groups` platform command emitted for one false-path pair. -/
def fpCmd (ft : Clk × Clk) : String :=
  "set_clock_groups -group [get_clocks -include_generated_clocks -of [get_nets " ++
    ft.1.name ++ "]] -group [get_clocks -include_generated_clocks -of [get_nets " ++
    ft.2.name ++ "]] -asynchronous"

/-- Embeds `_build_clock_constraints`: drain the registry into platform commands (the
banner, one `create_clock` per clock sorted by `duid`, one `set_clock_groups`
per false-path pair sorted by the `duid` pair) and delete both attributes so
that `add_*_constraint` cannot be used again.  On an already-finalized
registry accessing the deleted attribute raises `AttributeError` (after the
separator was pushed; the partial platform mutation is not modelled). -/
def _build_clock_constraints (tc : Toolchain) :
    Except String (Toolchain × List String) :=
  match tc.clocks, tc.false_paths with
  | some clocks, some fps =>
    let cmds := _xdc_separator ("Clock constraints") ::
      ((sortClocks clocks).map clockCmd ++ (sortPairs fps).map fpCmd)
    .ok ({ tc with clocks := none, false_paths := none }, cmds)
  | _, _ => .error ("AttributeError")

/-- C4: once the registry has been drained, both registration operations and
a second drain fault. -/
theorem finalized_registry_faults (tc tc' : Toolchain) (cmds : List String)
    (h : _build_clock_constraints tc = .ok (tc', cmds)) :
    tc'.clocks = none ∧ tc'.false_paths = none ∧
    (∀ clk p, add_period_constraint tc' clk p =
      .error ("AttributeError: clocks")) ∧
    (∀ a b, add_false_path_constraint tc' a b =
      .error ("AttributeError: false_paths")) ∧
    _build_clock_constraints tc' = .error ("AttributeError") := by
  obtain ⟨bc, ac, psc, ppc, prc, inc, sd, od, pd, popd, rd, pord, cl, fp, ka⟩ := tc
  cases cl with
  | none => simp [_build_clock_constraints] at h
  | some clocks =>
    cases fp with
    | none => simp [_build_clock_constraints] at h
    | some fps =>
      simp only [_build_clock_constraints] at h
      injection h with h
      injection h with h1 h2
      subst h1
      exact ⟨rfl, rfl, fun clk p => rfl, fun a b => rfl, rfl⟩

/-- Witness for C4: draining the fresh registry succeeds once, and every
further registration or drain on the resulting state faults. -/
theorem finalized_registry_faults_witness :
    _build_clock_constraints vivadoInit =
      .ok ({ vivadoInit with clocks := none, false_paths := none },
        [_xdc_separator ("Clock constraints")]) ∧
    add_period_constraint { vivadoInit with clocks := none, false_paths := none }
      sysClk 10 = .error ("AttributeError: clocks") ∧
    add_false_path_constraint { vivadoInit with clocks := none, false_paths := none }
      sysClk ⟨1, "clk_b"⟩ = .error ("AttributeError: false_paths") ∧
    _build_clock_constraints { vivadoInit with clocks := none, false_paths := none } =
      .error ("AttributeError") := by
  have h0 : _build_clock_constraints vivadoInit =
      .ok ({ vivadoInit with clocks := none, false_paths := none },
        [_xdc_separator ("Clock constraints")]) := rfl
  have hrest := finalized_registry_faults vivadoInit
    { vivadoInit with clocks := none, false_paths := none }
    [_xdc_separator ("Clock constraints")] h0
  exact ⟨h0, hrest.2.2.1 sysClk 10, hrest.2.2.2.1 sysClk ⟨1, "clk_b"⟩,
    hrest.2.2.2.2⟩

theorem mem_keepInsert_mono {l : List Clk} {c : Clk} (h : c ∈ l) (d : Clk) :
    c ∈ keepInsert l d := by
  unfold keepInsert
  split
  · exact h
  · exact List.mem_append_left _ h

/-- C6: false-path registration is symmetric: from a state without the pair,
registering `(A, B)` leaves exactly one entry for the unordered pair `{A, B}`
in the registered set, and later calls with `(B, A)` or `(A, B)` leave the
state unchanged; the drained (sorted) sequence also holds exactly one entry
for the pair. -/
theorem false_path_symmetric (tc : Toolchain) (fps : List (Clk × Clk)) (A B : Clk)
    (hfp : tc.false_paths = some fps) (hAB : A ≠ B)
    (h0 : countPair A B fps = 0) :
    ∃ tc₁ fps₁, add_false_path_constraint tc A B = .ok tc₁ ∧
      tc₁.false_paths = some fps₁ ∧
      countPair A B fps₁ = 1 ∧
      add_false_path_constraint tc₁ B A = .ok tc₁ ∧
      add_false_path_constraint tc₁ A B = .ok tc₁ ∧
      countPair A B (sortPairs fps₁) = 1 := by
  obtain ⟨bc, ac, psc, ppc, prc, inc, sd, od, pd, popd, rd, pord, cl, fp, ka⟩ := tc
  simp only at hfp
  subst hfp
  have hpred : ∀ q ∈ fps,
      ¬(((q.1 = A ∧ q.2 = B) ∨ (q.1 = B ∧ q.2 = A))) := by
    intro q hq
    have := List.countP_eq_zero.1 h0 q hq
    simpa using this
  have hABmem : (A, B) ∉ fps := fun hm => hpred _ hm (Or.inl ⟨rfl, rfl⟩)
  have hBAmem : (B, A) ∉ fps := fun hm => hpred _ hm (Or.inr ⟨rfl, rfl⟩)
  set K := keepInsert (keepInsert ka A) B with hK
  have hAK : A ∈ K := mem_keepInsert_mono (mem_keepInsert_self ka A) B
  have hBK : B ∈ K := mem_keepInsert_self _ B
  have hABfps' : (A, B) ∈ fps ++ [(A, B)] := List.mem_append_right _ (by simp)
  have hBAfps' : (B, A) ∉ fps ++ [(A, B)] := by
    intro hm
    rcases List.mem_append.1 hm with hm | hm
    · exact hBAmem hm
    · simp only [List.mem_singleton, Prod.mk.injEq] at hm
      exact hAB hm.2
  refine ⟨⟨bc, ac, psc, ppc, prc, inc, sd, od, pd, popd, rd, pord, cl,
    some (fps ++ [(A, B)]), K⟩, fps ++ [(A, B)], ?_, rfl, ?_, ?_, ?_, ?_⟩
  · simp only [add_false_path_constraint, setInsert]
    rw [if_neg hBAmem, if_neg hABmem]
  · unfold countPair at h0 ⊢
    rw [List.countP_append, h0]
    simp
  · simp only [add_false_path_constraint]
    rw [keepInsert_of_mem hBK, keepInsert_of_mem hAK, if_pos hABfps']
  · simp only [add_false_path_constraint, setInsert]
    rw [keepInsert_of_mem hAK, keepInsert_of_mem hBK, if_neg hBAfps',
      if_pos hABfps']
  · unfold countPair at h0 ⊢
    unfold sortPairs
    rw [(List.perm_insertionSort pairLe (fps ++ [(A, B)])).countP_eq,
      List.countP_append, h0]
    simp

/-- The second clock of the concrete false-path scenario. -/
def auxClk : Clk := ⟨1, "clk_b"⟩

/-- The registry state after registering the false path `(sysClk, auxClk)`. -/
def fpState : Toolchain :=
  { vivadoInit with false_paths := some [(sysClk, auxClk)],
                    keepAttrs := [sysClk, auxClk] }

/-- Witness for C6: registering `(sysClk, auxClk)` on the fresh registry
leaves one entry for the pair, and both re-registration orders are no-ops. -/
theorem false_path_symmetric_witness :
    add_false_path_constraint vivadoInit sysClk auxClk = .ok fpState ∧
    countPair sysClk auxClk [(sysClk, auxClk)] = 1 ∧
    add_false_path_constraint fpState auxClk sysClk = .ok fpState ∧
    add_false_path_constraint fpState sysClk auxClk = .ok fpState := by
  obtain ⟨tc₁, fps₁, h1, h2, h3, h4, h5, h6⟩ :=
    false_path_symmetric vivadoInit [] sysClk auxClk rfl (by decide) rfl
  have h1' : add_false_path_constraint vivadoInit sysClk auxClk = .ok fpState := rfl
  rw [h1] at h1'
  injection h1' with htc
  subst htc
  have hfp' : fpState.false_paths = some [(sysClk, auxClk)] := rfl
  rw [h2] at hfp'
  injection hfp' with hfps
  subst hfps
  exact ⟨h1, h3, h4, h5⟩

/-- The platform data consumed by `_build_tcl`: target device, source list
(filename, language, library), EDIF netlists, the IP dict (filename →
disable-constraints flag, in insertion order) and the include paths. -/
structure Platform where
  device : String
  sources : List (String × String × String)
  edifs : List String
  ips : List (String × Bool)
  verilog_include_paths : List String
deriving DecidableEq

/-- Embeds `os.path.basename`: the part after the last `/`. -/
def basename (s : String) : String := (s.splitOn ("/")).getLastD ""

/-- The root part of `os.path.splitext`: strip the extension after the last
dot, unless everything before that dot is dots (a leading-dot name has no
extension). -/
def splitextRoot (s : String) : String :=
  match s.toList.reverse.findIdx? (· = '.') with
  | none => s
  | some k =>
    let pre := s.toList.take (s.toList.length - 1 - k)
    if pre.all (· = '.') then s else String.mk pre

/-- Embeds `c.format(build_name=build_name)` on a hook command template: interpolate
the `\x7bbuild_name\x7d` placeholder. -/
def formatHook (build_name : String) (c : String) : String :=
  c.replace ("\x7bbuild_name\x7d") (build_name)

/-- The `add sources` commands for one `(filename, language, library)` entry,
dispatching on the declared language. -/
def source_cmds (s : String × String × String) : List String :=
  let filename_tcl := "\x7b" ++ s.1 ++ "\x7d"
  if s.2.1 = "systemverilog" then
    ["read_verilog -v " ++ filename_tcl,
     "set_property file_type SystemVerilog [get_files " ++ filename_tcl ++ "]"]
  else if s.2.1 = "verilog" then
    ["read_verilog " ++ filename_tcl]
  else if s.2.1 = "vhdl" then
    ["read_vhdl -vhdl2008 " ++ filename_tcl,
     "set_property library " ++ s.2.2 ++ " [get_files " ++ filename_tcl ++ "]"]
  else
    ["add_files " ++ filename_tcl]

/-- The `read_edif` command for one EDIF netlist. -/
def edifCmd (filename : String) : String :=
  "read_edif " ++ "\x7b" ++ filename ++ "\x7d"

/-- The command group for one IP descriptor: read, upgrade, generate,
synthesize, collect generated files, and optionally disable the IP's bundled
constraint files. -/
def ip_cmds (filename : String) (disable_constraints : Bool) : List String :=
  let filename_tcl := "\x7b" ++ filename ++ "\x7d"
  let ip := splitextRoot (basename filename)
  ["read_ip " ++ filename_tcl,
   "upgrade_ip [get_ips " ++ ip ++ "]",
   "generate_target all [get_ips " ++ ip ++ "]",
   "synth_ip [get_ips " ++ ip ++ "] -force",
   "get_files -all -of_objects [get_files " ++ filename_tcl ++ "]"] ++
  (if disable_constraints then
    ["set_property is_enabled false [get_files -of_objects [get_files " ++
      filename_tcl ++ "] -filter \x7bFILE_TYPE == XDC\x7d]"]
   else [])

/-- The `synth_design` command with its directive and optional include-path
list. -/
def synthCmd (tc : Toolchain) (p : Platform) (build_name : String) : String :=
  "synth_design -directive " ++ tc.vivado_synth_directive ++ " -top " ++
    build_name ++ " -part " ++ p.device ++
  (if p.verilog_include_paths.isEmpty then ""
   else " -include_dirs \x7b" ++
     String.intercalate (" ") p.verilog_include_paths ++ "\x7d")

/-- Stage 1: create the project and suppress the benign severity warning. -/
def stage_create_project (p : Platform) (build_name : String) : List String :=
  ["\n# Create Project\n",
   "create_project -force -name " ++ build_name ++ " -part " ++ p.device,
   "set_msg_config -id \x7bCommon 17-55\x7d -new_severity \x7bWarning\x7d"]

/-- Stage 2: optionally enable the Xilinx parameterized macro libraries. -/
def stage_xpm (enable_xpm : Bool) : List String :=
  if enable_xpm then
    ["\n# Enable Xilinx Parameterized Macros\n",
     "set_property XPM_LIBRARIES \x7bXPM_CDC XPM_MEMORY\x7d [current_project]"]
  else []

/-- Stage 3: add the source files (only when Vivado performs synthesis). -/
def stage_sources (p : Platform) (synth_mode : String) : List String :=
  if synth_mode = "vivado" then
    "\n# Add Sources\n" :: p.sources.flatMap source_cmds
  else []

/-- Stage 4: add the EDIF netlists. -/
def stage_edifs (p : Platform) : List String :=
  "\n# Add EDIFs\n" :: p.edifs.map edifCmd

/-- Stage 5: add the IP descriptors with their per-IP sub-commands. -/
def stage_ips (p : Platform) : List String :=
  "\n# Add IPs\n" :: p.ips.flatMap (fun fd => ip_cmds fd.1 fd.2)

/-- Stage 6: read the generated constraint file and mark it early. -/
def stage_constraints (build_name : String) : List String :=
  ["\n# Add constraints\n",
   "read_xdc " ++ build_name ++ ".xdc",
   "set_property PROCESSING_ORDER EARLY [get_files " ++ build_name ++ ".xdc]"]

/-- Stage 7: the user pre-synthesis hook commands. -/
def stage_pre_synthesis (tc : Toolchain) (build_name : String) : List String :=
  "\n# Add pre-synthesis commands\n" ::
    tc.pre_synthesis_commands.map (formatHook build_name)

/-- Stage 8: synthesis (or reading the Yosys netlist) plus its three
reports. -/
def stage_synthesis (tc : Toolchain) (p : Platform)
    (build_name synth_mode : String) : List String :=
  (if synth_mode = "vivado" then
    ["\n# Synthesis\n", synthCmd tc p build_name]
   else
    ["\n# Read Yosys EDIF\n",
     "read_edif " ++ build_name ++ ".edif",
     "link_design -top " ++ build_name ++ " -part " ++ p.device]) ++
  ["\n# Synthesis report\n",
   "report_timing_summary -file " ++ build_name ++ "_timing_synth.rpt",
   "report_utilization -hierarchical -file " ++ build_name ++
     "_utilization_hierarchical_synth.rpt",
   "report_utilization -file " ++ build_name ++ "_utilization_synth.rpt"]

/-- Stage 9: global optimization. -/
def stage_optimize (tc : Toolchain) : List String :=
  ["\n# Optimize design\n", "opt_design -directive " ++ tc.opt_directive]

/-- Stage 10: the optional incremental-checkpoint read and the user
pre-placement hooks. -/
def stage_incremental_preplace (tc : Toolchain) (build_name : String) :
    List String :=
  (if tc.incremental_implementation then
    ["\n# Read design checkpoint\n",
     "read_checkpoint -incremental " ++ build_name ++ "_route.dcp"]
   else []) ++
  ("\n# Add pre-placement commands\n" ::
    tc.pre_placement_commands.map (formatHook build_name))

/-- Stage 11: placement, optional post-placement physical optimization, and
the five placement reports. -/
def stage_placement (tc : Toolchain) (build_name : String) : List String :=
  ["\n# Placement\n",
   "place_design -directive " ++ tc.vivado_place_directive] ++
  (match tc.vivado_post_place_phys_opt_directive with
   | some d => if d = "" then [] else ["phys_opt_design -directive " ++ d]
   | none => []) ++
  ["\n# Placement report\n",
   "report_utilization -hierarchical -file " ++ build_name ++
     "_utilization_hierarchical_place.rpt",
   "report_utilization -file " ++ build_name ++ "_utilization_place.rpt",
   "report_io -file " ++ build_name ++ "_io.rpt",
   "report_control_sets -verbose -file " ++ build_name ++ "_control_sets.rpt",
   "report_clock_utilization -file " ++ build_name ++ "_clock_utilization.rpt"]

/-- Stage 12: the user pre-routing hooks. -/
def stage_pre_routing (tc : Toolchain) (build_name : String) : List String :=
  "\n# Add pre-routing commands\n" ::
    tc.pre_routing_commands.map (formatHook build_name)

/-- Stage 13: routing, mandatory post-route physical optimization, the
checkpoint write, the five routing reports and the bitstream-time hooks. -/
def stage_routing (tc : Toolchain) (build_name : String) : List String :=
  ["\n# Routing\n",
   "route_design -directive " ++ tc.vivado_route_directive,
   "phys_opt_design -directive " ++ tc.vivado_post_route_phys_opt_directive,
   "write_checkpoint -force " ++ build_name ++ "_route.dcp",
   "\n# Routing report\n",
   "report_timing_summary -no_header -no_detailed_paths",
   "report_route_status -file " ++ build_name ++ "_route_status.rpt",
   "report_drc -file " ++ build_name ++ "_drc.rpt",
   "report_timing_summary -datasheet -max_paths 10 -file " ++ build_name ++
     "_timing.rpt",
   "report_power -file " ++ build_name ++ "_power.rpt"] ++
  tc.bitstream_commands.map (formatHook build_name)

/-- Stage 14: bitstream generation, the additional hook commands and the
termination command. -/
def stage_bitstream (tc : Toolchain) (build_name : String) : List String :=
  ["\n# Bitstream generation\n",
   "write_bitstream -force " ++ build_name ++ ".bit "] ++
  tc.additional_commands.map (formatHook build_name) ++
  ["\n# End\n", "quit"]

/-- The fourteen stages of §4.4 in their fixed order. -/
def vivado_stages (tc : Toolchain) (p : Platform)
    (build_name synth_mode : String) (enable_xpm : Bool) : List (List String) :=
  [stage_create_project p build_name,
   stage_xpm enable_xpm,
   stage_sources p synth_mode,
   stage_edifs p,
   stage_ips p,
   stage_constraints build_name,
   stage_pre_synthesis tc build_name,
   stage_synthesis tc p build_name synth_mode,
   stage_optimize tc,
   stage_incremental_preplace tc build_name,
   stage_placement tc build_name,
   stage_pre_routing tc build_name,
   stage_routing tc build_name,
   stage_bitstream tc build_name]

/-- Embeds `_build_tcl`: assemble the whole command sequence by appending each
block in source order to one list.  The leading `assert synth_mode in
["vivado", "yosys"]` is modelled by the guard; under it the `else: raise
OSError` branch of the synthesis dispatch (lines 192-193) is unreachable. -/
def _build_tcl (tc : Toolchain) (p : Platform)
    (build_name synth_mode : String) (enable_xpm : Bool) :
    Except String (List String) :=
  if synth_mode = "vivado" ∨ synth_mode = "yosys" then
    let tcl : List String := []
    let tcl := tcl ++
      ["\n# Create Project\n",
       "create_project -force -name " ++ build_name ++ " -part " ++ p.device,
       "set_msg_config -id \x7bCommon 17-55\x7d -new_severity \x7bWarning\x7d"]
    let tcl := tcl ++
      (if enable_xpm then
        ["\n# Enable Xilinx Parameterized Macros\n",
         "set_property XPM_LIBRARIES \x7bXPM_CDC XPM_MEMORY\x7d [current_project]"]
       else [])
    let tcl := tcl ++
      (if synth_mode = "vivado" then
        "\n# Add Sources\n" :: p.sources.flatMap source_cmds
       else [])
    let tcl := tcl ++ ("\n# Add EDIFs\n" :: p.edifs.map edifCmd)
    let tcl := tcl ++ ("\n# Add IPs\n" :: p.ips.flatMap (fun fd => ip_cmds fd.1 fd.2))
    let tcl := tcl ++
      ["\n# Add constraints\n",
       "read_xdc " ++ build_name ++ ".xdc",
       "set_property PROCESSING_ORDER EARLY [get_files " ++ build_name ++ ".xdc]"]
    let tcl := tcl ++
      ("\n# Add pre-synthesis commands\n" ::
        tc.pre_synthesis_commands.map (formatHook build_name))
    let tcl := tcl ++
      (if synth_mode = "vivado" then
        ["\n# Synthesis\n", synthCmd tc p build_name]
       else
        ["\n# Read Yosys EDIF\n",
         "read_edif " ++ build_name ++ ".edif",
         "link_design -top " ++ build_name ++ " -part " ++ p.device])
    let tcl := tcl ++
      ["\n# Synthesis report\n",
       "report_timing_summary -file " ++ build_name ++ "_timing_synth.rpt",
       "report_utilization -hierarchical -file " ++ build_name ++
         "_utilization_hierarchical_synth.rpt",
       "report_utilization -file " ++ build_name ++ "_utilization_synth.rpt"]
    let tcl := tcl ++
      ["\n# Optimize design\n", "opt_design -directive " ++ tc.opt_directive]
    let tcl := tcl ++
      (if tc.incremental_implementation then
        ["\n# Read design checkpoint\n",
         "read_checkpoint -incremental " ++ build_name ++ "_route.dcp"]
       else [])
    let tcl := tcl ++
      ("\n# Add pre-placement commands\n" ::
        tc.pre_placement_commands.map (formatHook build_name))
    let tcl := tcl ++
      ["\n# Placement\n",
       "place_design -directive " ++ tc.vivado_place_directive]
    let tcl := tcl ++
      (match tc.vivado_post_place_phys_opt_directive with
       | some d => if d = "" then [] else ["phys_opt_design -directive " ++ d]
       | none => [])
    let tcl := tcl ++
      ["\n# Placement report\n",
       "report_utilization -hierarchical -file " ++ build_name ++
         "_utilization_hierarchical_place.rpt",
       "report_utilization -file " ++ build_name ++ "_utilization_place.rpt",
       "report_io -file " ++ build_name ++ "_io.rpt",
       "report_control_sets -verbose -file " ++ build_name ++ "_control_sets.rpt",
       "report_clock_utilization -file " ++ build_name ++ "_clock_utilization.rpt"]
    let tcl := tcl ++
      ("\n# Add pre-routing commands\n" ::
        tc.pre_routing_commands.map (formatHook build_name))
    let tcl := tcl ++
      ["\n# Routing\n",
       "route_design -directive " ++ tc.vivado_route_directive,
       "phys_opt_design -directive " ++ tc.vivado_post_route_phys_opt_directive,
       "write_checkpoint -force " ++ build_name ++ "_route.dcp"]
    let tcl := tcl ++
      ["\n# Routing report\n",
       "report_timing_summary -no_header -no_detailed_paths",
       "report_route_status -file " ++ build_name ++ "_route_status.rpt",
       "report_drc -file " ++ build_name ++ "_drc.rpt",
       "report_timing_summary -datasheet -max_paths 10 -file " ++ build_name ++
         "_timing.rpt",
       "report_power -file " ++ build_name ++ "_power.rpt"]
    let tcl := tcl ++ tc.bitstream_commands.map (formatHook build_name)
    let tcl := tcl ++
      ["\n# Bitstream generation\n",
       "write_bitstream -force " ++ build_name ++ ".bit "]
    let tcl := tcl ++ tc.additional_commands.map (formatHook build_name)
    let tcl := tcl ++ ["\n# End\n", "quit"]
    .ok tcl
  else
    .error ("AssertionError: synth_mode not in [vivado, yosys]")

/-- C1: for a recognized synthesis mode the assembled command sequence is
exactly the concatenation of the fourteen stages in their fixed order, so no
line of a later stage ever precedes a line of an earlier stage (for every cut
point `i`, the output is the lines of the first `i` stages followed by the
lines of the remaining stages). -/
theorem build_tcl_stage_order (tc : Toolchain) (p : Platform)
    (build_name synth_mode : String) (enable_xpm : Bool)
    (h : synth_mode = "vivado" ∨ synth_mode = "yosys") :
    _build_tcl tc p build_name synth_mode enable_xpm =
      .ok (vivado_stages tc p build_name synth_mode enable_xpm).flatten ∧
    (vivado_stages tc p build_name synth_mode enable_xpm).length = 14 ∧
    ∀ i, (vivado_stages tc p build_name synth_mode enable_xpm).flatten =
      ((vivado_stages tc p build_name synth_mode enable_xpm).take i).flatten ++
      ((vivado_stages tc p build_name synth_mode enable_xpm).drop i).flatten := by
  refine ⟨?_, rfl, fun i => by rw [← List.flatten_append, List.take_append_drop]⟩
  simp only [_build_tcl, if_pos h, vivado_stages, List.flatten,
    stage_create_project, stage_xpm, stage_sources, stage_edifs, stage_ips,
    stage_constraints, stage_pre_synthesis, stage_synthesis, stage_optimize,
    stage_incremental_preplace, stage_placement, stage_pre_routing,
    stage_routing, stage_bitstream, List.cons_append, List.append_assoc,
    List.nil_append, List.append_nil]

/-- C10: an unrecognized synthesis mode fails the leading assertion, so no
command line of any stage is produced. -/
theorem build_tcl_unknown_mode (tc : Toolchain) (p : Platform)
    (build_name synth_mode : String) (enable_xpm : Bool)
    (h : ¬(synth_mode = "vivado" ∨ synth_mode = "yosys")) :
    _build_tcl tc p build_name synth_mode enable_xpm =
      .error ("AssertionError: synth_mode not in [vivado, yosys]") ∧
    ∀ lines, _build_tcl tc p build_name synth_mode enable_xpm ≠ .ok lines := by
  have h1 : _build_tcl tc p build_name synth_mode enable_xpm =
      .error ("AssertionError: synth_mode not in [vivado, yosys]") := by
    simp only [_build_tcl, if_neg h]
  refine ⟨h1, fun lines hl => ?_⟩
  rw [h1] at hl
  exact absurd hl (by simp)

/-- A concrete platform exercising every stage of the assembler. -/
def testPlatform : Platform where
  device := "xc7a35t"
  sources := [("top.v", "verilog", "work"), ("pkg.vhd", "vhdl", "mylib")]
  edifs := ["a.edf"]
  ips := [("ip/core.xci", true)]
  verilog_include_paths := ["inc"]

/-- Witness for C1: the assembled script for a concrete build in `vivado`
mode is the join of its fourteen stages. -/
theorem build_tcl_stage_order_witness :
    _build_tcl vivadoInit testPlatform "top" "vivado" true =
      .ok (vivado_stages vivadoInit testPlatform "top" "vivado" true).flatten :=
  (build_tcl_stage_order vivadoInit testPlatform "top" "vivado" true
    (Or.inl rfl)).1

/-- Witness for C10: synthesis mode `"foo"` is rejected up front. -/
theorem build_tcl_unknown_mode_witness :
    _build_tcl vivadoInit testPlatform "top" "foo" false =
      .error ("AssertionError: synth_mode not in [vivado, yosys]") :=
  (build_tcl_unknown_mode vivadoInit testPlatform "top" "foo" false
    (by decide)).1

/-- Split a character list at newlines (helper for `splitLines`). -/
def splitLinesAux : List Char → List Char → List String
  | [], acc => [String.mk acc.reverse]
  | c :: cs, acc =>
    if c = '\n' then String.mk acc.reverse :: splitLinesAux cs []
    else splitLinesAux cs (c :: acc)

/-- The lines of a string, splitting at every newline (`"a\nb\n"` gives
`["a", "b", ""]`). -/
def splitLines (s : String) : List String := splitLinesAux s.toList []

/-- Embeds `_build_script`: the wrapper-script filename and contents.  The outcome of
`sys.platform` and `tools.get_litex_git_revision()` are passed as inputs. -/
def _build_script (sys_platform git_revision build_name : String) :
    String × String :=
  if sys_platform = "win32" ∨ sys_platform = "cygwin" then
    ("build_" ++ build_name ++ ".bat",
     "REM Autogenerated by LiteX / git: " ++ git_revision ++ "\n" ++
       "vivado -mode batch -source " ++ build_name ++ ".tcl\n")
  else
    ("build_" ++ build_name ++ ".sh",
     "# Autogenerated by LiteX / git: " ++ git_revision ++ "\nset -e\n" ++
       "vivado -mode batch -source " ++ build_name ++ ".tcl\n")

/-- Counterexample for C9: on `win32` the wrapper is only the revision
comment and the batch invocation — it has no fail-fast (`set -e`) line, while
the non-Windows wrapper does. -/
theorem build_script_win32_missing_failfast :
    splitLines (_build_script "win32" "abc" "top").2 =
      ["REM Autogenerated by LiteX / git: abc",
       "vivado -mode batch -source top.tcl", ""] ∧
    "set -e" ∉ splitLines (_build_script "win32" "abc" "top").2 ∧
    "set -e" ∈ splitLines (_build_script "linux" "abc" "top").2 := by
  refine ⟨rfl, by decide, by decide⟩

/-- C9 (amended): the wrapper script consists of a leading comment recording
the git revision and the batch-mode invocation; only on non-Windows platforms
does a fail-fast `set -e` line stand between them, while the `win32`/`cygwin`
`.bat` wrapper has no fail-fast line. -/
theorem build_script_spec (plat rev name : String) :
    ((plat = "win32" ∨ plat = "cygwin") →
      _build_script plat rev name =
        ("build_" ++ name ++ ".bat",
         "REM Autogenerated by LiteX / git: " ++ rev ++ "\n" ++
           "vivado -mode batch -source " ++ name ++ ".tcl\n")) ∧
    (¬(plat = "win32" ∨ plat = "cygwin") →
      _build_script plat rev name =
        ("build_" ++ name ++ ".sh",
         "# Autogenerated by LiteX / git: " ++ rev ++ "\nset -e\n" ++
           "vivado -mode batch -source " ++ name ++ ".tcl\n")) := by
  refine ⟨fun h => ?_, fun h => ?_⟩
  · simp [_build_script, if_pos h]
  · simp [_build_script, if_neg h]

/-- Witness for C9: the concrete wrappers on `linux` and `cygwin`. -/
theorem build_script_spec_witness :
    _build_script "linux" "abc" "top" =
      ("build_top.sh",
       "# Autogenerated by LiteX / git: abc\nset -e\nvivado -mode batch -source top.tcl\n") ∧
    _build_script "cygwin" "abc" "top" =
      ("build_top.bat",
       "REM Autogenerated by LiteX / git: abc\nvivado -mode batch -source top.tcl\n") := by
  have h := build_script_spec "linux" "abc" "top"
  have h' := build_script_spec "cygwin" "abc" "top"
  exact ⟨(h.2 (by decide)).trans (by decide), (h'.1 (by decide)).trans (by decide)⟩

/-- The process-wide state touched by `build`: the current working
directory. -/
structure World where
  cwd : String
deriving DecidableEq

/-- The inputs of one `build` call, with the outcomes of the external
collaborators passed as oracles: `finalize_err`/`verilog_err` are the
exceptions raised (if any) by design finalization and verilog generation, and
`tool_exit` is the exit status of the invoked tool subprocess. -/
structure BuildInput where
  build_dir : String
  build_name : String
  run : Bool
  synth_mode : String
  enable_xpm : Bool
  finalize_err : Option String
  verilog_err : Option String
  named_sc : List SigCon
  named_pc : List String
  tool_exit : Int

/-- Embeds `XilinxVivadoToolchain.build`: create the build directory, save the
caller's working directory and change into the build directory, finalize the
design, drain the timing registry, generate verilog, assemble the tcl script,
build the constraint file, optionally run the tool (a non-zero exit raises
`OSError`), and change back to the saved directory — the change back only
happens on the success path, because the source has no `try`/`finally`. -/
def build (tc : Toolchain) (p : Platform) (w : World) (i : BuildInput) :
    World × Except String Toolchain :=
  let cwd := w.cwd
  let w := { w with cwd := i.build_dir }
  match i.finalize_err with
  | some e => (w, .error e)
  | none =>
    match _build_clock_constraints tc with
    | .error e => (w, .error e)
    | .ok (tc, _cmds) =>
      match i.verilog_err with
      | some e => (w, .error e)
      | none =>
        match _build_tcl tc p i.build_name i.synth_mode i.enable_xpm with
        | .error e => (w, .error e)
        | .ok _tcl =>
          match _build_xdc i.named_sc i.named_pc with
          | .error e => (w, .error e)
          | .ok _xdc =>
            if i.run then
              if i.tool_exit ≠ 0 then (w, .error ("OSError: Subprocess failed"))
              else ({ w with cwd := cwd }, .ok tc)
            else ({ w with cwd := cwd }, .ok tc)

/-- A build request whose tool subprocess exits with status 1. -/
def failInput : BuildInput where
  build_dir := "build"
  build_name := "top"
  run := true
  synth_mode := "vivado"
  enable_xpm := false
  finalize_err := none
  verilog_err := none
  named_sc := []
  named_pc := []
  tool_exit := 1

/-- The same build request with a successful tool run. -/
def okInput : BuildInput := { failInput with tool_exit := 0 }

/-- Counterexample for C8: when the external tool fails, `build` raises and
the working directory is left at the build directory, not restored to the
caller's directory. -/
theorem build_cwd_not_restored :
    (build vivadoInit testPlatform ⟨"/home/user"⟩ failInput).1.cwd = "build" ∧
    (build vivadoInit testPlatform ⟨"/home/user"⟩ failInput).2 =
      .error ("OSError: Subprocess failed") ∧
    (build vivadoInit testPlatform ⟨"/home/user"⟩ failInput).1.cwd ≠
      "/home/user" := by
  refine ⟨rfl, rfl, by decide⟩

/-- C8 (amended): `build` restores the caller's working directory exactly on
the successful exit paths; on every error exit (finalization, registry drain,
verilog generation, script assembly, constraint build, or tool failure) the
working directory remains the build directory. -/
theorem build_cwd_restore (tc : Toolchain) (p : Platform) (w : World)
    (i : BuildInput) :
    (∀ r, (build tc p w i).2 = .ok r → (build tc p w i).1.cwd = w.cwd) ∧
    (∀ e, (build tc p w i).2 = .error e →
      (build tc p w i).1.cwd = i.build_dir) := by
  cases hf : i.finalize_err with
  | some e =>
    have hb : build tc p w i = ({ w with cwd := i.build_dir }, .error e) := by
      simp [build, hf]
    rw [hb]
    exact ⟨fun r hr => by simp at hr, fun e' he => rfl⟩
  | none =>
    cases hc : _build_clock_constraints tc with
    | error e =>
      have hb : build tc p w i = ({ w with cwd := i.build_dir }, .error e) := by
        simp [build, hf, hc]
      rw [hb]
      exact ⟨fun r hr => by simp at hr, fun e' he => rfl⟩
    | ok pr =>
      obtain ⟨tc', cmds⟩ := pr
      cases hv : i.verilog_err with
      | some e =>
        have hb : build tc p w i = ({ w with cwd := i.build_dir }, .error e) := by
          simp [build, hf, hc, hv]
        rw [hb]
        exact ⟨fun r hr => by simp at hr, fun e' he => rfl⟩
      | none =>
        cases ht : _build_tcl tc' p i.build_name i.synth_mode i.enable_xpm with
        | error e =>
          have hb : build tc p w i = ({ w with cwd := i.build_dir }, .error e) := by
            simp [build, hf, hc, hv, ht]
          rw [hb]
          exact ⟨fun r hr => by simp at hr, fun e' he => rfl⟩
        | ok tcl =>
          cases hx : _build_xdc i.named_sc i.named_pc with
          | error e =>
            have hb : build tc p w i = ({ w with cwd := i.build_dir }, .error e) := by
              simp [build, hf, hc, hv, ht, hx]
            rw [hb]
            exact ⟨fun r hr => by simp at hr, fun e' he => rfl⟩
          | ok xdc =>
            cases hrun : i.run with
            | true =>
              by_cases hexit : i.tool_exit = 0
              · have hb : build tc p w i = ({ w with cwd := w.cwd }, .ok tc') := by
                  simp [build, hf, hc, hv, ht, hx, hrun, hexit]
                rw [hb]
                exact ⟨fun r hr => rfl, fun e' he => by simp at he⟩
              · have hb : build tc p w i =
                    ({ w with cwd := i.build_dir },
                     .error ("OSError: Subprocess failed")) := by
                  simp [build, hf, hc, hv, ht, hx, hrun, hexit]
                rw [hb]
                exact ⟨fun r hr => by simp at hr, fun e' he => rfl⟩
            | false =>
              have hb : build tc p w i = ({ w with cwd := w.cwd }, .ok tc') := by
                simp [build, hf, hc, hv, ht, hx, hrun]
              rw [hb]
              exact ⟨fun r hr => rfl, fun e' he => by simp at he⟩

/-- Witness for C8: a successful build from `/home/user` ends back in
`/home/user`. -/
theorem build_cwd_restore_witness :
    (build vivadoInit testPlatform ⟨"/home/user"⟩ okInput).2 =
      .ok { vivadoInit with clocks := none, false_paths := none } ∧
    (build vivadoInit testPlatform ⟨"/home/user"⟩ okInput).1.cwd =
      "/home/user" := by
  have h : (build vivadoInit testPlatform ⟨"/home/user"⟩ okInput).2 =
      .ok { vivadoInit with clocks := none, false_paths := none } := rfl
  exact ⟨h,
    (build_cwd_restore vivadoInit testPlatform ⟨"/home/user"⟩ okInput).1 _ h⟩

end Vivado
